import Mathlib

/-!
Weaver core — verification of the fill pipeline

Shallow embedding of the core components of the Weaver form-filling
system, translated from the Python sources:

* `app/domain/entities/fill_task.py`   — `FillTask`
* `app/core/fill_queue.py`             — `FillQueue`
* `app/core/anchor_resolver.py`        — `AnchorResolver.resolve`
* `app/core/smart_matcher.py`          — `SmartMatcher`
* `app/core/smart_form_analyzer.py`    — `SmartFormAnalyzer.deep_scan_page`
* `app/core/pagination_controller.py`  — `PaginationController`
* `app/core/smart_form_filler.py`      — `SmartFormFiller._fill_with_fallback`
* `app/application/orchestrator/strategies/anchor_fill_strategy.py`
                                       — `AnchorFillStrategy._execute_anchor_fill`

Browser probes (DOM lookups, JS execution) are modelled as explicit
inputs: a scan result table, a snapshot stream, or locatability
predicates.  Python `int` is modelled as `Int` where negative values can
arise, `Nat` where the source only ever produces non-negative values.
-/

namespace Weaver

/-- Whitespace as stripped by Python `str.strip()` (the ASCII blanks
that occur around the cell values handled here). -/
def isPyBlank (c : Char) : Bool :=
  c.isWhitespace || c == '\x0b' || c == '\x0c'

/-- Python `str.strip()`: drop leading and trailing whitespace. -/
def pyStrip (s : String) : String :=
  String.mk (((s.data.dropWhile isPyBlank).reverse.dropWhile isPyBlank).reverse)

/-- Truthiness of an optional Python string (`if anchor_column:`):
`None` and the empty string are falsy. -/
def pyTruthyStr : Option String → Bool
  | none => false
  | some s => s ≠ ""

/-- A data row, as the string-rendered cell values the resolver reads
(`str(row.get(col, ''))`): an association list column-name → value. -/
abbrev Row := List (String × String)

/-- Python `row.get(col, '')` on a row. -/
def rowGet (row : Row) (col : String) : String :=
  match row.find? (fun p => p.1 == col) with
  | some p => p.2
  | none => ""

/-- Lookup in a Python dict modelled as an association list
(`anchor_value in web_anchor_map` / `web_anchor_map[anchor_value]`). -/
def dictLookup (m : List (String × Nat)) (k : String) : Option Nat :=
  match m.find? (fun p => p.1 == k) with
  | some p => some p.2
  | none => none

/-! ## FillTask — src/app/domain/entities/fill_task.py -/

/-- One fill task: source row → destination web row, with a lifecycle
status (`pending`/`success`/`error`/`skipped`). -/
structure FillTask where
  excelRowIdx : Int
  webRowIdx : Int
  rowData : Row
  anchorValue : Option String := none
  status : String := "pending"
  errorMessage : Option String := none
  deriving Repr, DecidableEq

/-- Embeds `FillTask.mark_success`. -/
def FillTask.markSuccess (t : FillTask) : FillTask :=
  { t with status := "success" }

/-- Embeds `FillTask.mark_error`. -/
def FillTask.markError (t : FillTask) (message : String) : FillTask :=
  { t with status := "error", errorMessage := some message }

/-- Embeds `FillTask.mark_skipped` — sets the status and stores the reason. -/
def FillTask.markSkipped (t : FillTask) (reason : String := "") : FillTask :=
  { t with status := "skipped", errorMessage := some reason }

/-- Embeds `FillTask.is_pending`. -/
def FillTask.isPending (t : FillTask) : Bool := t.status == "pending"

/-! ## AnchorResolver.resolve — src/app/core/anchor_resolver.py

The data frame is the `iterrows()` view: a list of
(frame index, row) pairs.  `_scan_web_anchors` is a browser probe; its
result (the value → web-row-index table) is passed in as
`webAnchorMap`, and the field mapping enters through its key set. -/

/-- The skip reason built in `resolve` for an unmatched anchor value
(`f"锚点值 '{anchor_value}' 未在网页中找到"`). -/
def anchorMissReason (anchorValue : String) : String :=
  "锚点值 \x27" ++ anchorValue ++ "\x27 未在网页中找到"

/-- Embeds `AnchorResolver.resolve`: build the ordered task list.  Anchor mode
when the anchor column is truthy and mapped; sequential mode otherwise
(`enumerate` supplies the 0-based destination index). -/
def AnchorResolver.resolve (excelData : List (Int × Row))
    (mappingKeys : List String) (webAnchorMap : List (String × Nat))
    (anchorColumn : Option String) : List FillTask :=
  if pyTruthyStr anchorColumn ∧ anchorColumn.getD "" ∈ mappingKeys then
    excelData.map (fun p =>
      let anchorValue := pyStrip (rowGet p.2 (anchorColumn.getD ""))
      match dictLookup webAnchorMap anchorValue with
      | some webIdx =>
          { excelRowIdx := p.1, webRowIdx := webIdx, rowData := p.2,
            anchorValue := some anchorValue }
      | none =>
          FillTask.markSkipped
            { excelRowIdx := p.1, webRowIdx := -1, rowData := p.2,
              anchorValue := some anchorValue }
            (anchorMissReason anchorValue))
  else
    excelData.enum.map (fun q =>
      { excelRowIdx := q.2.1, webRowIdx := (q.1 : Int), rowData := q.2.2 })

/-! ## FillQueue — src/app/core/fill_queue.py

`_current_idx` is a Python `int`; it is modelled as `Int` because
`advance` only clamps it from above, so it can in fact go negative. -/

/-- The fill queue: ordered task list plus a cursor. -/
structure FillQueue where
  tasks : List FillTask
  currentIdx : Int
  deriving Repr, DecidableEq

/-- Embeds `FillQueue(tasks)` — the constructor starts the cursor at 0. -/
def FillQueue.make (tasks : List FillTask) : FillQueue :=
  { tasks := tasks, currentIdx := 0 }

/-- Embeds `FillQueue.add_task`. -/
def FillQueue.addTask (q : FillQueue) (t : FillTask) : FillQueue :=
  { q with tasks := q.tasks ++ [t] }

/-- Python list indexing `xs[i]`: negative indices count from the end,
out-of-range access raises `IndexError` (here `none`). -/
def pyListGet {α : Type} (xs : List α) (i : Int) : Option α :=
  if 0 ≤ i then xs.get? i.toNat
  else if 0 ≤ i + xs.length then xs.get? (i + xs.length).toNat
  else none

/-- The `while` loop of `FillQueue.get_next`: collect pending tasks from
position `idx` upward until `count` are gathered or the list ends.
`IndexError` (only reachable from a negative cursor) is `Except.error`. -/
def FillQueue.getNextGo (tasks : List FillTask) (count : Int)
    (acc : List FillTask) (idx : Int) : Except Unit (List FillTask) :=
  if _h : (acc.length : Int) < count ∧ idx < (tasks.length : Int) then
    match pyListGet tasks idx with
    | none => .error ()
    | some t =>
        FillQueue.getNextGo tasks count
          (if t.isPending then acc ++ [t] else acc) (idx + 1)
  else .ok acc
termination_by ((tasks.length : Int) - idx).toNat
decreasing_by
  omega

/-- Embeds `FillQueue.get_next(count)` — `count = -1` means all tasks. -/
def FillQueue.getNext (q : FillQueue) (count : Int := 1) :
    Except Unit (List FillTask) :=
  let count := if count == -1 then (q.tasks.length : Int) else count
  FillQueue.getNextGo q.tasks count [] q.currentIdx

/-- Embeds `FillQueue.advance(count)`:
`self._current_idx = min(self._current_idx + count, len(self.tasks))`. -/
def FillQueue.advance (q : FillQueue) (count : Int := 1) : FillQueue :=
  { q with currentIdx := min (q.currentIdx + count) (q.tasks.length : Int) }

/-- The `current_index` setter:
`self._current_idx = max(0, min(value, len(self.tasks)))`. -/
def FillQueue.setCurrentIndex (q : FillQueue) (value : Int) : FillQueue :=
  { q with currentIdx := max 0 (min value (q.tasks.length : Int)) }

/-- Embeds `FillQueue.total_count`. -/
def FillQueue.totalCount (q : FillQueue) : Nat := q.tasks.length

/-- Embeds `FillQueue.has_more`. -/
def FillQueue.hasMore (q : FillQueue) : Bool :=
  q.currentIdx < (q.tasks.length : Int)

/-- Embeds `FillQueue.reset` — cursor to 0, every task back to pending. -/
def FillQueue.reset (q : FillQueue) : FillQueue :=
  { tasks := q.tasks.map (fun t =>
      { t with status := "pending", errorMessage := none }),
    currentIdx := 0 }

/-- One public operation on a `FillQueue` (the mutating surface plus
`get_next`, which leaves the queue unchanged). -/
inductive QueueOp where
  | addTask (t : FillTask)
  | getNext (count : Int)
  | advance (count : Int)
  | setCurrentIndex (value : Int)
  | reset
  deriving Repr, DecidableEq

/-- Apply one public operation to the queue. -/
def FillQueue.applyOp (q : FillQueue) : QueueOp → FillQueue
  | .addTask t => q.addTask t
  | .getNext _ => q
  | .advance c => q.advance c
  | .setCurrentIndex v => q.setCurrentIndex v
  | .reset => q.reset

/-- The cursor invariant `0 ≤ current_index ≤ total_count`. -/
def FillQueue.cursorInv (q : FillQueue) : Prop :=
  0 ≤ q.currentIdx ∧ q.currentIdx ≤ (q.tasks.length : Int)

instance (q : FillQueue) : Decidable q.cursorInv := by
  unfold FillQueue.cursorInv; infer_instance

/-- Operations whose `advance` argument is non-negative. -/
def QueueOp.advanceNonneg : QueueOp → Prop
  | .advance c => 0 ≤ c
  | _ => True

instance (op : QueueOp) : Decidable op.advanceNonneg := by
  cases op <;> simp only [QueueOp.advanceNonneg] <;> infer_instance

/-! ## SmartMatcher — src/app/core/smart_matcher.py -/

/-- Characters removed by `_normalize_text`
(`re.sub(r'[：:：\s\-\_]+', '', text)`): colons (ASCII and fullwidth),
whitespace, hyphen, underscore. -/
def isNormalizeStripChar (c : Char) : Bool :=
  c == '：' || c == ':' || c.isWhitespace || c == '\x0b' || c == '\x0c' ||
  c == '-' || c == '_'

/-- Embeds `SmartMatcher._normalize_text`: drop separators, lowercase. -/
def normalizeText (s : String) : String :=
  String.mk ((s.data.filter (fun c => !isNormalizeStripChar c)).map Char.toLower)

/-- The separator class of `_split_words`
(`re.split(r'[\s\-\_]+', text)`). -/
def isSplitSepChar (c : Char) : Bool :=
  c.isWhitespace || c == '\x0b' || c == '\x0c' || c == '-' || c == '_'

/-- Camel-case splitting on a character list:
`re.sub(r'([a-z])([A-Z])', r'\1 \2', part)` inserts a blank between
each ASCII lowercase/uppercase pair (the two classes are disjoint so
the regex substitution is exactly this pairwise insertion). -/
def camelSplitChars : List Char → List Char
  | a :: b :: rest =>
      if a.isLower && b.isUpper then a :: ' ' :: camelSplitChars (b :: rest)
      else a :: camelSplitChars (b :: rest)
  | l => l

/-- Split a character list at separators (separator dropped, empty
pieces kept — the semantics of `re.split` on a character class). -/
def splitCharsGo (p : Char → Bool) : List Char → List Char → List (List Char)
  | [], cur => [cur.reverse]
  | c :: rest, cur =>
      if p c then cur.reverse :: splitCharsGo p rest []
      else splitCharsGo p rest (c :: cur)

/-- Split a string at the characters satisfying `p`. -/
def splitChars (p : Char → Bool) (s : String) : List (List Char) :=
  splitCharsGo p s.data []

/-- Embeds `SmartMatcher._split_words`: split on separators, split camel case
(`part.split()` after the substitution: whitespace-separated, empties
dropped), lowercase. -/
def splitWords (s : String) : List String :=
  if s == "" then []
  else
    ((splitChars isSplitSepChar s).flatMap (fun part =>
        ((splitCharsGo (fun c => c.isWhitespace) (camelSplitChars part) []).filter
            (fun w => w ≠ [])).map String.mk)).map
      (fun w => String.mk (w.data.map Char.toLower))

/-- The candidate-text view of an `ElementFingerprint` used by the
matcher: `anchors['label']`, `features['name']`, `anchors['placeholder']`
(the fourth candidate, `features.get('id', '')`, is always `''` because
the `features` dict built in `ElementFingerprint.__init__` has no `id`
key — see `webTexts`). -/
structure MFingerprint where
  label : String := ""
  name : String := ""
  placeholder : String := ""
  deriving Repr, DecidableEq

/-- The `web_texts` list assembled in `_calculate_match_score`.  The last
entry is `fingerprint.features.get('id', '')`: the `features` dict has
keys tag/type/name/class/position only, so that lookup yields `''`. -/
def webTexts (fp : MFingerprint) : List String :=
  [fp.label, fp.name, fp.placeholder, ""]

/-- Does `hay` start with `needle`? (helper for substring containment). -/
def startsWithChars : List Char → List Char → Bool
  | _, [] => true
  | [], _ :: _ => false
  | h :: hs, n :: ns => h == n && startsWithChars hs ns

/-- Python string containment `needle in hay`. -/
def containsChars (hay needle : List Char) : Bool :=
  startsWithChars hay needle ||
    match hay with
    | [] => false
    | _ :: rest => containsChars rest needle

/-- Python `set(a) & set(b)` cardinality for word lists. -/
def commonWordCount (a b : List String) : Nat :=
  (a.dedup.filter (fun w => w ∈ b)).length

/-- Embeds `SmartMatcher._calculate_match_score`.  Strategy 3's
`int(40 + overlap * 30)` is modelled as exact integer arithmetic
`40 + 30 * common / max`, the rational value the float expression
truncates. -/
def calculateMatchScore (excelCol : String) (fp : MFingerprint) : Nat :=
  let excelNormalized := normalizeText excelCol
  let webNormalized := ((webTexts fp).filter (fun t => t ≠ "")).map normalizeText
  if excelNormalized ∈ webNormalized then 100
  else
    let s2 : Nat :=
      if webNormalized.any (fun w =>
          containsChars w.data excelNormalized.data ||
          containsChars excelNormalized.data w.data)
      then 80 else 0
    let excelWords := splitWords excelCol
    let s3 : Nat :=
      (((webTexts fp).filter (fun t => t ≠ "")).map (fun wt =>
          let webWords := splitWords wt
          let common := commonWordCount excelWords webWords
          if 0 < common then
            40 + 30 * common / max excelWords.length webWords.length
          else 0)).foldl max 0
    let excelInitials :=
      String.mk (excelWords.filterMap (fun w => w.data.head?.map Char.toLower))
    let s4 : Nat :=
      if 2 ≤ excelInitials.length ∧
          ((webTexts fp).filter (fun t => t ≠ "")).any (fun wt =>
            String.mk ((splitWords wt).filterMap
              (fun w => w.data.head?.map Char.toLower)) == excelInitials)
      then 60 else 0
    max (max s2 s3) s4

/-- Embeds `SmartMatcher.MATCH_THRESHOLD`. -/
def MATCH_THRESHOLD : Nat := 60

/-- The inner loop of `match_fields`: find the best-scoring unclaimed
fingerprint (claimed ones are skipped; a strictly greater score wins, so
the first maximum is kept).  Fingerprints are identified by their list
position, standing for Python object identity `id(fingerprint)`. -/
def bestCandidateGo (excelCol : String) (used : List Nat) :
    List (Nat × MFingerprint) → Option Nat × Nat → Option Nat × Nat
  | [], acc => acc
  | p :: rest, acc =>
      bestCandidateGo excelCol used rest
        (if p.1 ∈ used then acc
         else if acc.2 < calculateMatchScore excelCol p.2 then
           (some p.1, calculateMatchScore excelCol p.2)
         else acc)

/-- Best match and score for one column (`best_match`, `best_score`). -/
def bestCandidate (excelCol : String) (fps : List MFingerprint)
    (used : List Nat) : Option Nat × Nat :=
  bestCandidateGo excelCol used fps.enum (none, 0)

/-- Result of a matching pass (`MatchResult`): matched triples
(column, fingerprint position, score) and the two unmatched lists. -/
structure MatchResult where
  matched : List (String × Nat × Nat)
  unmatchedExcel : List String
  unmatchedWeb : List Nat
  deriving Repr, DecidableEq

/-- The outer loop of `match_fields` over the Excel columns, threading
the matched list, the unmatched columns and the claimed-fingerprint set. -/
def matchFieldsGo (fps : List MFingerprint) :
    List String → List (String × Nat × Nat) × List String × List Nat →
    List (String × Nat × Nat) × List String × List Nat
  | [], st => st
  | col :: cols, (matched, unmatchedExcel, used) =>
      let bs := bestCandidate col fps used
      if MATCH_THRESHOLD ≤ bs.2 ∧ bs.1 ≠ none then
        matchFieldsGo fps cols
          (matched ++ [(col, bs.1.getD 0, bs.2)], unmatchedExcel,
           used ++ [bs.1.getD 0])
      else
        matchFieldsGo fps cols (matched, unmatchedExcel ++ [col], used)

/-- Embeds `SmartMatcher.match_fields`. -/
def matchFields (excelColumns : List String) (fps : List MFingerprint) :
    MatchResult :=
  let st := matchFieldsGo fps excelColumns ([], [], [])
  { matched := st.1,
    unmatchedExcel := st.2.1,
    unmatchedWeb := (List.range fps.length).filter (fun i => i ∉ st.2.2) }

/-! ## SmartFormAnalyzer.deep_scan_page — src/app/core/smart_form_analyzer.py

The poll loop of `deep_scan_page`, lines 69-127.  Each browser probe
(`tab.run_js(...)`) yields a snapshot: the list of raw element records;
the successive snapshots are the input list (its length is the poll
budget `max_polls`).  The loop tracks `last_count`, `stable_count` and
`best_result`; on three consecutive equal positive counts it breaks with
`best_result = js_result`, otherwise on a count change it retains the
new snapshot when non-empty.  The returned snapshot is the one the
fingerprints are built from (one fingerprint per record). -/

/-- Loop state of the stability scan. -/
structure ScanAcc (α : Type) where
  lastCount : Int
  stableCount : Nat
  bestResult : Option (List α)
  deriving Repr

/-- Initial loop state (`last_count = -1`, `stable_count = 0`,
`best_result = None`). -/
def scanInit (α : Type) : ScanAcc α :=
  { lastCount := -1, stableCount := 0, bestResult := none }

/-- The stability loop of `deep_scan_page`: fold the successive
snapshots, returning the `best_result` in effect when the loop breaks
(stability reached) or the poll budget is exhausted. -/
def deepScanLoop {α : Type} : List (List α) → ScanAcc α → Option (List α)
  | [], acc => acc.bestResult
  | snap :: rest, acc =>
      let current : Int := (snap.length : Int)
      if current == acc.lastCount && 0 < snap.length then
        if 3 ≤ acc.stableCount + 1 then some snap
        else
          deepScanLoop rest
            { lastCount := current, stableCount := acc.stableCount + 1,
              bestResult := acc.bestResult }
      else
        deepScanLoop rest
          { lastCount := current, stableCount := 0,
            bestResult := if 0 < snap.length then some snap else acc.bestResult }

/-- Number of fingerprints produced from the main-document scan: one
`ElementFingerprint` per record of the selected snapshot (conversion of
a record is modelled as always succeeding), `none` when the loop ends
with no usable snapshot (the code then falls back to the native scan). -/
def deepScanMainCount {α : Type} (polls : List (List α)) : Option Nat :=
  (deepScanLoop polls (scanInit α)).map List.length

/-! ## PaginationController — src/app/core/pagination_controller.py -/

/-- The navigation button as probed by `_check_button_disabled`:
its `disabled` / `aria-disabled` / `class` attributes
(`None` when absent) and the result of the computed-style JS probe
(`el.disabled`, `aria-disabled`, `pointer-events: none`,
`opacity < 0.5`). -/
structure PCButton where
  disabledAttr : Option String := none
  ariaDisabled : Option String := none
  className : Option String := none
  jsDisabled : Bool := false
  deriving Repr, DecidableEq

/-- The disabled-class tokens checked against `class_name.lower()`. -/
def disabledClasses : List String :=
  ["disabled", "ant-pagination-disabled", "el-button--disabled",
   "btn-disabled", "is-disabled", "pagination-disabled"]

/-- Embeds `PaginationController._check_button_disabled`. -/
def checkButtonDisabled (b : PCButton) : Bool :=
  (match b.disabledAttr with
   | some v => v ≠ "false"
   | none => false) ||
  b.ariaDisabled == some "true" ||
  disabledClasses.any (fun dc =>
    containsChars ((b.className.getD "").data.map Char.toLower) dc.data) ||
  b.jsDisabled

/-- A `PageState` snapshot as compared by `detect_page_change`
(page number, element count and timestamp never enter the comparison). -/
structure PageSnap where
  url : String
  contentHash : String
  deriving Repr, DecidableEq

/-- Embeds `PaginationController.detect_page_change`. -/
def detectPageChange (oldState newState : PageSnap) : Bool :=
  oldState.url ≠ newState.url || oldState.contentHash ≠ newState.contentHash

/-- The browser surface `click_next_page` touches: the stream of
successive `capture_page_state` results, the button the selector lookup
finds (`none` = not found), and whether `button.click()` returns
normally (`false` = it raises, landing in the retry `except`). -/
structure PCTab where
  snapshots : Nat → PageSnap
  button : Option PCButton
  clickOk : Bool

/-- Outcome of `click_next_page`: the returned bool, the number of
times `button.click()` was invoked, and the `current_page` counter. -/
structure PCOutcome where
  result : Bool
  clicks : Nat
  currentPage : Nat
  deriving Repr, DecidableEq

/-- The post-click wait (`while time.time() - start_time < max_wait`),
polling up to `fuel` further snapshots for a change against `old`.
Returns whether a change was seen and the next capture position. -/
def waitForChange (tab : PCTab) (old : PageSnap) :
    Nat → Nat → Bool × Nat
  | 0, cap => (false, cap)
  | fuel + 1, cap =>
      if detectPageChange old (tab.snapshots cap) then (true, cap + 1)
      else waitForChange tab old fuel (cap + 1)

/-- The `for retry in range(max_retries)` loop of `click_next_page`:
capture the old state, find the button, short-circuit on the disabled
probe, click, and poll for a page change; with no change left on the
last retry the loop falls through to `return False`. -/
def clickRetryLoop (tab : PCTab) (pollBudget : Nat) :
    Nat → Nat → Nat → Nat → PCOutcome
  | 0, _, clicks, page => { result := false, clicks := clicks, currentPage := page }
  | retriesLeft + 1, cap, clicks, page =>
      let old := tab.snapshots cap
      match tab.button with
      | none => { result := false, clicks := clicks, currentPage := page }
      | some b =>
          if checkButtonDisabled b then
            { result := false, clicks := clicks, currentPage := page }
          else if tab.clickOk then
            let w := waitForChange tab old pollBudget (cap + 1)
            if w.1 then
              { result := true, clicks := clicks + 1, currentPage := page + 1 }
            else
              clickRetryLoop tab pollBudget retriesLeft w.2 (clicks + 1) page
          else
            clickRetryLoop tab pollBudget retriesLeft (cap + 1) (clicks + 1) page

/-- Embeds `PaginationController.click_next_page`: `False` outright when no
button selector is configured, else the retry loop (`max_retries`
defaults to 3). -/
def clickNextPage (tab : PCTab) (selectorSet : Bool) (page : Nat)
    (maxRetries : Nat := 3) (pollBudget : Nat := 17) : PCOutcome :=
  if !selectorSet then { result := false, clicks := 0, currentPage := page }
  else clickRetryLoop tab pollBudget maxRetries 0 0 page

/-! ## SmartFormFiller._fill_with_fallback — src/app/core/smart_form_filler.py

The single-field write (lines 628-703) and its JS event path
(`_fill_with_js_events`, lines 705-848).  The JS probe locates the
element by id, then CSS, then XPath; on `element_not_found` it reports
`success: false` and the Python side returns `False`.  The native
fallback then iterates `fingerprint.get_fallback_selectors()` — a method
`ElementFingerprint` (src/app/domain/entities/element_fingerprint.py)
never defines, so Python raises `AttributeError` at that call; the
enclosing `try` has only a `finally`, so the exception propagates. -/

/-- A Python exception escaping the fill engine. -/
inductive PyError where
  | attributeError (message : String)
  deriving Repr, DecidableEq

/-- The selector material `_fill_with_fallback` reads off the
fingerprint: `raw_data['id']`, `selectors['xpath']`, `selectors['css']`
(each `''` when absent) and the frame path. -/
structure FillFingerprint where
  elemId : String := ""
  xpath : String := ""
  css : String := ""
  framePath : String := ""
  deriving Repr, DecidableEq

/-- The browser surface of the JS fill script: which non-empty
selectors locate an element.  A located element is modelled as
accepting the event chain (the write then reports `success: true`). -/
structure FillTab where
  locatableById : String → Bool
  locatableByCss : String → Bool
  locatableByXpath : String → Bool

/-- Embeds `SmartFormFiller._fill_with_js_events`: the injected script tries
`getElementById`, `querySelector`, then `document.evaluate`; a truthy
selector that locates the element lets the event chain run
(`success: true` → `True`), otherwise `element_not_found` → `False`. -/
def fillWithJsEvents (tab : FillTab) (elemId xpath css : String) : Bool :=
  (elemId ≠ "" && tab.locatableById elemId) ||
  (css ≠ "" && tab.locatableByCss css) ||
  (xpath ≠ "" && tab.locatableByXpath xpath)

/-- Embeds `SmartFormFiller._fill_with_fallback`.  The iframe switch
(lines 641-655) only changes the execution context and is restored in
the `finally`; it is modelled as context bookkeeping with no effect on
locatability.  When the JS path fails, the source calls
`fingerprint.get_fallback_selectors()`: no such attribute exists on
`ElementFingerprint`, so the call raises `AttributeError` (the class
only defines `get_best_selector` and `get_selector_for_row`). -/
def fillWithFallback (tab : FillTab) (fp : FillFingerprint)
    (_value : String) : Except PyError Bool :=
  if fillWithJsEvents tab fp.elemId fp.xpath fp.css then .ok true
  else
    .error (.attributeError
      "ElementFingerprint object has no attribute get_fallback_selectors")

/-! ## AnchorFillStrategy._execute_anchor_fill —
src/app/application/orchestrator/strategies/anchor_fill_strategy.py

Lines 145-180: the anchor fill loop.  `matched_rows` entries carry the
source row; the per-row write `_fill_single_anchor_row` is a browser
action, modelled as the predicate `fillSuccess` on the task position.
`abort_event.is_set()` is the cooperative-cancellation probe, a
predicate on the task position about to be processed. -/

/-- One entry of `matched_rows` (the row payload is irrelevant to the
control flow and omitted). -/
structure AnchorMatch where
  excelIdx : Int
  webRowIdx : Nat
  anchorValue : String
  deriving Repr, DecidableEq

/-- The slice of `FillSessionState` the anchor loop touches. -/
structure SessionState where
  currentRowIdx : Nat := 0
  isPaused : Bool := false
  isRunning : Bool := true
  totalSuccess : Nat := 0
  totalError : Nat := 0
  processedExcelIndices : List Int := []
  deriving Repr, DecidableEq

/-- Embeds `FillSessionController._complete_fill` (state effect only):
clears `is_running`. -/
def completeFill (st : SessionState) : SessionState :=
  { st with isRunning := false }

/-- The `while current_idx < total_matched` loop of
`_execute_anchor_fill`, also returning the processed task positions in
order.  On pause (`single_form` with tasks remaining) the cursor is
saved and `is_paused` set; when the loop ends (normally or via abort)
`_complete_fill` runs. -/
def executeAnchorFillGo (rows : List AnchorMatch) (fillMode : String)
    (abort fillSuccess : Nat → Bool) (current : Nat) (st : SessionState)
    (processed : List Nat) : SessionState × List Nat :=
  if h : current < rows.length then
    if abort current then (completeFill st, processed)
    else
      let mi := rows.get ⟨current, h⟩
      let st := if fillSuccess current then
          { st with
              totalSuccess := st.totalSuccess + 1,
              processedExcelIndices :=
                if mi.excelIdx ∈ st.processedExcelIndices then
                  st.processedExcelIndices
                else st.processedExcelIndices ++ [mi.excelIdx] }
        else { st with totalError := st.totalError + 1 }
      if fillMode == "single_form" ∧ current + 1 < rows.length then
        ({ st with currentRowIdx := current + 1, isPaused := true },
         processed ++ [current])
      else
        executeAnchorFillGo rows fillMode abort fillSuccess (current + 1) st
          (processed ++ [current])
  else (completeFill st, processed)
termination_by rows.length - current

/-- Embeds `_execute_anchor_fill`: the loop starts at the persisted cursor
`state.current_row_idx`. -/
def executeAnchorFill (rows : List AnchorMatch) (fillMode : String)
    (abort fillSuccess : Nat → Bool) (st : SessionState) :
    SessionState × List Nat :=
  executeAnchorFillGo rows fillMode abort fillSuccess st.currentRowIdx st []

/-- Repeated resumption in single-record mode: each resume clears
`is_paused` and re-enters `_execute_anchor_fill` at the saved cursor
(`resume_anchor_fill`), until a run ends unpaused.  `fuel` bounds the
number of resumes. -/
def singleModeResumeRun (rows : List AnchorMatch)
    (fillSuccess : Nat → Bool) :
    Nat → SessionState → List Nat → SessionState × List Nat
  | 0, st, acc => (st, acc)
  | fuel + 1, st, acc =>
      let r := executeAnchorFill rows "single_form" (fun _ => false)
        fillSuccess st
      if r.1.isPaused then
        singleModeResumeRun rows fillSuccess fuel
          { r.1 with isPaused := false } (acc ++ r.2)
      else (r.1, acc ++ r.2)

/-! ## Theorems -/

/-- The skip reason built by the resolver is never empty. -/
theorem anchorMissReason_ne_empty (v : String) : anchorMissReason v ≠ "" := by
  intro h
  have hd := congrArg String.data h
  simp [anchorMissReason, String.data_append] at hd

/-- C1: in anchor mode (anchor column truthy and present in the field
mapping), `AnchorResolver.resolve` yields exactly one task per source
row, in order: a row whose stripped key is in the scanned web table gets
that destination index with status `pending` (not skipped); a miss gets
status `skipped` with a non-empty reason.  No row is dropped. -/
theorem C1_anchor_mode_exactly_one_task_per_row
    (excelData : List (Int × Row)) (mappingKeys : List String)
    (webAnchorMap : List (String × Nat)) (c : String)
    (hne : c ≠ "") (hmem : c ∈ mappingKeys) :
    (AnchorResolver.resolve excelData mappingKeys webAnchorMap (some c)).length
        = excelData.length ∧
    ∀ i p, excelData.get? i = some p →
      ∃ t, (AnchorResolver.resolve excelData mappingKeys webAnchorMap (some c)).get? i
            = some t ∧
        t.excelRowIdx = p.1 ∧ t.rowData = p.2 ∧
        t.anchorValue = some (pyStrip (rowGet p.2 c)) ∧
        (∀ w, dictLookup webAnchorMap (pyStrip (rowGet p.2 c)) = some w →
            t.webRowIdx = (w : Int) ∧ t.status = "pending") ∧
        (dictLookup webAnchorMap (pyStrip (rowGet p.2 c)) = none →
            t.status = "skipped" ∧ ∃ r, t.errorMessage = some r ∧ r ≠ "") := by
  have hcond : (pyTruthyStr (some c) = true) ∧ c ∈ mappingKeys :=
    ⟨by simp [pyTruthyStr, hne], hmem⟩
  have hres : AnchorResolver.resolve excelData mappingKeys webAnchorMap (some c)
      = excelData.map (fun p =>
          match dictLookup webAnchorMap (pyStrip (rowGet p.2 c)) with
          | some webIdx =>
              { excelRowIdx := p.1
                webRowIdx := (webIdx : Int)
                rowData := p.2
                anchorValue := some (pyStrip (rowGet p.2 c)) }
          | none =>
              FillTask.markSkipped
                { excelRowIdx := p.1
                  webRowIdx := -1
                  rowData := p.2
                  anchorValue := some (pyStrip (rowGet p.2 c)) }
                (anchorMissReason (pyStrip (rowGet p.2 c)))) := by
    simp only [AnchorResolver.resolve, Option.getD_some]
    rw [if_pos hcond]
  refine ⟨by rw [hres, List.length_map], ?_⟩
  intro i p hp
  rw [hres, List.get?_map, hp, Option.map_some']
  cases hdl : dictLookup webAnchorMap (pyStrip (rowGet p.2 c)) with
  | some w =>
      simp only [hdl]
      refine ⟨_, rfl, rfl, rfl, rfl, ?_, ?_⟩
      · intro w2 hw2
        cases hw2
        exact ⟨rfl, rfl⟩
      · intro hnone
        cases hnone
  | none =>
      simp only [hdl]
      refine ⟨_, rfl, rfl, rfl, rfl, ?_, ?_⟩
      · intro w2 hw2
        cases hw2
      · intro _
        exact ⟨rfl, anchorMissReason (pyStrip (rowGet p.2 c)), rfl,
          anchorMissReason_ne_empty _⟩

/-- Witness for C1 at the spec scenario: web table `{A100: 0, A101: 1}`,
source keys `A101` (hit, destination 1) and `A999` (miss, skipped with a
non-empty reason). -/
theorem C1_witness :
    ∃ t1, (AnchorResolver.resolve
        [(0, [("ID", "A101")]), (1, [("ID", "A999")])] ["ID"]
        [("A100", 0), ("A101", 1)] (some "ID")).get? 0 = some t1 ∧
      t1.webRowIdx = 1 ∧ t1.status = "pending" ∧
    ∃ t2, (AnchorResolver.resolve
        [(0, [("ID", "A101")]), (1, [("ID", "A999")])] ["ID"]
        [("A100", 0), ("A101", 1)] (some "ID")).get? 1 = some t2 ∧
      t2.status = "skipped" ∧ ∃ r, t2.errorMessage = some r ∧ r ≠ "" := by
  have h := C1_anchor_mode_exactly_one_task_per_row
    [(0, [("ID", "A101")]), (1, [("ID", "A999")])] ["ID"]
    [("A100", 0), ("A101", 1)] "ID" (by decide) (by simp)
  obtain ⟨t1, hget1, _, _, _, hhit, _⟩ := h.2 0 (0, [("ID", "A101")]) rfl
  obtain ⟨t2, hget2, _, _, _, _, hmiss⟩ := h.2 1 (1, [("ID", "A999")]) rfl
  have h1 := hhit 1 (by decide)
  have h2 := hmiss (by decide)
  exact ⟨t1, hget1, h1.1, h1.2, t2, hget2, h2.1, h2.2⟩

/-- C9: with no anchor column, `resolve` produces one task per source
row and the destination index is the row's 0-based position. -/
theorem C9_sequential_positional
    (excelData : List (Int × Row)) (mappingKeys : List String)
    (webAnchorMap : List (String × Nat)) :
    (AnchorResolver.resolve excelData mappingKeys webAnchorMap none).length
        = excelData.length ∧
    ∀ i p, excelData.get? i = some p →
      (AnchorResolver.resolve excelData mappingKeys webAnchorMap none).get? i
        = some { excelRowIdx := p.1, webRowIdx := (i : Int), rowData := p.2 } := by
  have hcond : ¬ ((pyTruthyStr none = true) ∧
      (none : Option String).getD "" ∈ mappingKeys) := by
    simp [pyTruthyStr]
  constructor
  · simp only [AnchorResolver.resolve, if_neg hcond, List.length_map,
      List.enum_length]
  · intro i p hp
    simp only [AnchorResolver.resolve, if_neg hcond, List.get?_map,
      List.get?_enum, hp, Option.map_some']

/-- Witness for C9 at the spec scenario: rows Alice/001 and Bob/002 in
sequential mode yield destination indices 0 and 1 carrying those rows. -/
theorem C9_witness :
    (AnchorResolver.resolve
        [(0, [("Name", "Alice"), ("ID", "001")]),
         (1, [("Name", "Bob"), ("ID", "002")])] ["Name", "ID"] [] none).length = 2 ∧
    (AnchorResolver.resolve
        [(0, [("Name", "Alice"), ("ID", "001")]),
         (1, [("Name", "Bob"), ("ID", "002")])] ["Name", "ID"] [] none).get? 0
      = some { excelRowIdx := 0, webRowIdx := 0,
               rowData := [("Name", "Alice"), ("ID", "001")] } ∧
    (AnchorResolver.resolve
        [(0, [("Name", "Alice"), ("ID", "001")]),
         (1, [("Name", "Bob"), ("ID", "002")])] ["Name", "ID"] [] none).get? 1
      = some { excelRowIdx := 1, webRowIdx := 1,
               rowData := [("Name", "Bob"), ("ID", "002")] } := by
  have h := C9_sequential_positional
    [(0, [("Name", "Alice"), ("ID", "001")]),
     (1, [("Name", "Bob"), ("ID", "002")])] ["Name", "ID"] []
  exact ⟨h.1, h.2 0 _ rfl, h.2 1 _ rfl⟩

/-- C5 counterexample: against a fingerprint labelled `User Name`, the
score of field `用户名` is 0 — not in `[70, 100)` as claimed — because
the Chinese column name splits into the single token `用户名`, which
never overlaps the English tokens, and no other strategy fires. -/
theorem C5_counterexample_username_score_zero :
    calculateMatchScore "用户名" { label := "User Name" } = 0 ∧
    ¬ 70 ≤ calculateMatchScore "用户名" { label := "User Name" } := by
  decide

/-- C5 (amended): `用户名` scores 100 against label `用户名` (exact
normalized equality), 0 against label `User Name` (single Chinese token,
no overlap with the English tokens), 0 against unrelated `Address`;
with only the latter two fingerprints present the field is reported
unmatched (threshold 60 never reached). -/
theorem C5_amended_match_scores :
    calculateMatchScore "用户名" { label := "用户名" } = 100 ∧
    calculateMatchScore "用户名" { label := "User Name" } = 0 ∧
    calculateMatchScore "用户名" { label := "Address" } = 0 ∧
    (matchFields ["用户名"] [{ label := "User Name" }, { label := "Address" }]).matched
      = [] ∧
    (matchFields ["用户名"] [{ label := "User Name" }, { label := "Address" }]).unmatchedExcel
      = ["用户名"] := by
  decide

/-- The inner scoring loop never selects an already-claimed
fingerprint. -/
theorem bestCandidateGo_not_used (col : String) (used : List Nat) :
    ∀ (l : List (Nat × MFingerprint)) (acc : Option Nat × Nat),
      (∀ j, acc.1 = some j → j ∉ used) →
      ∀ j, (bestCandidateGo col used l acc).1 = some j → j ∉ used := by
  intro l
  induction l with
  | nil => intro acc hacc j hj; exact hacc j hj
  | cons p rest ih =>
      intro acc hacc j hj
      rw [bestCandidateGo] at hj
      refine ih _ ?_ j hj
      intro j2 hj2
      by_cases hp : p.1 ∈ used
      · rw [if_pos hp] at hj2
        exact hacc j2 hj2
      · rw [if_neg hp] at hj2
        by_cases hs : acc.2 < calculateMatchScore col p.2
        · rw [if_pos hs] at hj2
          cases hj2
          exact hp
        · rw [if_neg hs] at hj2
          exact hacc j2 hj2

/-- The `best_match` of one column is never an already-claimed
fingerprint. -/
theorem bestCandidate_not_used (col : String) (fps : List MFingerprint)
    (used : List Nat) :
    ∀ j, (bestCandidate col fps used).1 = some j → j ∉ used :=
  bestCandidateGo_not_used col used fps.enum (none, 0) (by intro j hj; cases hj)

/-- Invariant of the matching pass: the claimed-fingerprint set is
exactly the fingerprints of the matched triples, without duplicates. -/
theorem matchFieldsGo_claim_inv (fps : List MFingerprint) :
    ∀ (cols : List String) (matched : List (String × Nat × Nat))
      (unmatched : List String) (used : List Nat),
      used = matched.map (fun m => m.2.1) → used.Nodup →
      (matchFieldsGo fps cols (matched, unmatched, used)).2.2
          = (matchFieldsGo fps cols (matched, unmatched, used)).1.map
              (fun m => m.2.1) ∧
      (matchFieldsGo fps cols (matched, unmatched, used)).2.2.Nodup := by
  intro cols
  induction cols with
  | nil =>
      intro matched unmatched used h1 h2
      exact ⟨h1, h2⟩
  | cons col cols ih =>
      intro matched unmatched used h1 h2
      rw [matchFieldsGo]
      by_cases hc : MATCH_THRESHOLD ≤ (bestCandidate col fps used).2 ∧
          (bestCandidate col fps used).1 ≠ none
      · rw [if_pos hc]
        obtain ⟨j, hj⟩ : ∃ j, (bestCandidate col fps used).1 = some j := by
          cases hbc : (bestCandidate col fps used).1 with
          | none => exact absurd hbc hc.2
          | some j => exact ⟨j, rfl⟩
        have hnotused : j ∉ used := bestCandidate_not_used col fps used j hj
        refine ih _ _ _ ?_ ?_
        · rw [List.map_append, h1]
          rfl
        · rw [hj]
          simp only [Option.getD_some]
          exact List.Nodup.append h2 (List.nodup_singleton j)
            (by simpa [List.disjoint_singleton] using hnotused)
      · rw [if_neg hc]
        exact ih _ _ _ h1 h2

/-- C6: one matching pass never assigns the same fingerprint to two
fields — the fingerprints occurring in the matched triples of
`match_fields` are pairwise distinct (an earlier claim makes a
fingerprint unavailable to later fields). -/
theorem C6_no_fingerprint_claimed_twice (cols : List String)
    (fps : List MFingerprint) :
    ((matchFields cols fps).matched.map (fun m => m.2.1)).Nodup := by
  have h := matchFieldsGo_claim_inv fps cols [] [] [] rfl List.nodup_nil
  rw [matchFields]
  exact h.1 ▸ h.2

/-- C10 counterexample: the cursor invariant is not preserved by every
public operation — from the empty queue (which satisfies it),
`advance(-1)` drives `current_index` to `-1`: `advance` clamps only
from above. -/
theorem C10_counterexample_advance_negative :
    FillQueue.cursorInv (FillQueue.make []) ∧
    ¬ FillQueue.cursorInv ((FillQueue.make []).applyOp (.advance (-1))) := by
  decide

/-- The `get_next` loop, run from a valid cursor, returns (without an
index error) the pending tasks from that position in order, truncated to
the requested count. -/
theorem getNextGo_characterization (tasks : List FillTask) (count : Int) :
    ∀ (n : Nat) (idx : Int) (acc : List FillTask),
      0 ≤ idx → idx ≤ (tasks.length : Int) → n = tasks.length - idx.toNat →
      FillQueue.getNextGo tasks count acc idx
        = .ok (acc ++ ((tasks.drop idx.toNat).filter FillTask.isPending).take
            ((count - acc.length).toNat)) := by
  intro n
  induction n with
  | zero =>
      intro idx acc h0 hle hn
      have hidx : idx.toNat = tasks.length := by omega
      rw [FillQueue.getNextGo, dif_neg (by omega)]
      rw [hidx, List.drop_length]
      simp
  | succ m ih =>
      intro idx acc h0 hle hn
      by_cases hcnt : (acc.length : Int) < count
      · have hlt : idx < (tasks.length : Int) := by omega
        have hlt2 : idx.toNat < tasks.length := by omega
        rw [FillQueue.getNextGo, dif_pos ⟨hcnt, hlt⟩]
        have hget : pyListGet tasks idx = some (tasks.get ⟨idx.toNat, hlt2⟩) := by
          rw [pyListGet, if_pos h0]
          exact List.get?_eq_get hlt2
        rw [hget]
        dsimp only
        have hinc : (idx + 1).toNat = idx.toNat + 1 := by omega
        have hdrop : tasks.drop idx.toNat
            = tasks.get ⟨idx.toNat, hlt2⟩ :: tasks.drop (idx.toNat + 1) :=
          List.drop_eq_get_cons hlt2
        by_cases hpend : tasks.get ⟨idx.toNat, hlt2⟩ |>.isPending
        · rw [if_pos hpend, ih (idx + 1) _ (by omega) (by omega) (by omega)]
          rw [hinc, hdrop, List.filter_cons_of_pos hpend]
          have hk : (count - (acc.length : Int)).toNat
              = (count - ((acc ++ [tasks.get ⟨idx.toNat, hlt2⟩]).length : Int)).toNat + 1 := by
            rw [List.length_append]
            simp only [List.length_singleton]
            omega
          rw [hk, List.take_succ_cons, List.append_assoc]
          rfl
        · rw [if_neg hpend, ih (idx + 1) _ (by omega) (by omega) (by omega)]
          rw [hinc, hdrop, List.filter_cons_of_neg (by simpa using hpend)]
      · rw [FillQueue.getNextGo, dif_neg (by intro hh; exact hcnt hh.1)]
        have : (count - (acc.length : Int)).toNat = 0 := by omega
        rw [this]
        simp

/-- C10 (amended): every public operation except a negative-count
`advance` preserves the cursor invariant `0 ≤ current_index ≤
total_count` (`advance` clamps only from above, the setter clamps both
ways), and from a valid cursor `get_next` returns exactly the pending
tasks in queue order from the cursor, truncated to the requested count
(`-1` = all). -/
theorem C10_amended_queue_invariant_and_get_next :
    (∀ (q : FillQueue) (op : QueueOp), q.cursorInv → op.advanceNonneg →
      (q.applyOp op).cursorInv) ∧
    (∀ (q : FillQueue) (count : Int), q.cursorInv →
      q.getNext count
        = .ok (((q.tasks.drop q.currentIdx.toNat).filter FillTask.isPending).take
            (if count = -1 then q.tasks.length else count.toNat))) := by
  constructor
  · intro q op hq hop
    obtain ⟨hq0, hq1⟩ := hq
    cases op with
    | addTask t =>
        refine ⟨hq0, ?_⟩
        simp only [FillQueue.applyOp, FillQueue.addTask, List.length_append,
          List.length_singleton]
        omega
    | getNext c => exact ⟨hq0, hq1⟩
    | advance c =>
        have hc : (0 : Int) ≤ c := hop
        refine ⟨?_, ?_⟩
        · simp only [FillQueue.applyOp, FillQueue.advance]
          omega
        · simp only [FillQueue.applyOp, FillQueue.advance]
          omega
    | setCurrentIndex v =>
        refine ⟨?_, ?_⟩
        · simp only [FillQueue.applyOp, FillQueue.setCurrentIndex]
          omega
        · simp only [FillQueue.applyOp, FillQueue.setCurrentIndex]
          omega
    | reset =>
        refine ⟨le_refl 0, ?_⟩
        simp only [FillQueue.applyOp, FillQueue.reset, List.length_map]
        omega
  · intro q count hq
    obtain ⟨hq0, hq1⟩ := hq
    rw [FillQueue.getNext]
    rw [getNextGo_characterization q.tasks _ (q.tasks.length - q.currentIdx.toNat)
      q.currentIdx [] hq0 hq1 rfl]
    simp only [List.nil_append, List.length_nil, Nat.cast_zero, Int.sub_zero]
    by_cases hm : count = -1
    · rw [if_pos hm]
      have : (count == -1) = true := by simpa using hm
      rw [this]
      simp
    · rw [if_neg hm]
      have : (count == -1) = false := by simpa using hm
      rw [this]
      simp

/-- Witness for C10 (amended) at a concrete queue: two tasks of which
only the first is pending, cursor 0; `advance 1` keeps the invariant and
`get_next 1` returns exactly the pending first task. -/
theorem C10_amended_witness :
    FillQueue.cursorInv ((FillQueue.make
        [{ excelRowIdx := 0, webRowIdx := 0, rowData := [] },
         { excelRowIdx := 1, webRowIdx := 1, rowData := [], status := "success" }]).applyOp
      (.advance 1)) ∧
    (FillQueue.make
        [{ excelRowIdx := 0, webRowIdx := 0, rowData := [] },
         { excelRowIdx := 1, webRowIdx := 1, rowData := [], status := "success" }]).getNext 1
      = .ok [{ excelRowIdx := 0, webRowIdx := 0, rowData := [] }] := by
  constructor
  · exact C10_amended_queue_invariant_and_get_next.1 _ (.advance 1)
      (by decide) (by decide)
  · rw [C10_amended_queue_invariant_and_get_next.2 _ 1 (by decide)]
    rfl

/-- In any non-single mode, one run of the anchor loop (no abort)
processes exactly the indices from `current` to the end, in order. -/
theorem executeAnchorFillGo_batch (rows : List AnchorMatch) (mode : String)
    (ab succ : Nat → Bool) (hm : (mode == "single_form") = false)
    (hab : ∀ n, ab n = false) :
    ∀ (n current : Nat) (st : SessionState) (processed : List Nat),
      n = rows.length - current →
      (executeAnchorFillGo rows mode ab succ current st processed).2
        = processed ++ List.range' current (rows.length - current) := by
  intro n
  induction n with
  | zero =>
      intro current st processed hn
      rw [executeAnchorFillGo, dif_neg (by omega)]
      have h0 : rows.length - current = 0 := by omega
      rw [h0]
      simp [List.range']
  | succ m ih =>
      intro current st processed hn
      have hlt : current < rows.length := by omega
      rw [executeAnchorFillGo, dif_pos hlt, hab current]
      dsimp only
      simp only [hm, Bool.false_eq_true, false_and, if_false]
      rw [ih (current + 1) _ _ (by omega)]
      have hr : rows.length - current = (rows.length - (current + 1)) + 1 := by omega
      rw [hr, List.range'_succ, List.append_assoc]
      rfl

/-- In single-record mode with further tasks remaining, one run
processes exactly the task at the cursor, saves cursor + 1 and pauses. -/
theorem executeAnchorFillGo_single_pause (rows : List AnchorMatch)
    (ab succ : Nat → Bool) (st : SessionState) (processed : List Nat)
    (current : Nat) (h : current + 1 < rows.length)
    (hab : ab current = false) :
    ∃ st2, executeAnchorFillGo rows "single_form" ab succ current st processed
        = (st2, processed ++ [current]) ∧
      st2.isPaused = true ∧ st2.currentRowIdx = current + 1 := by
  rw [executeAnchorFillGo, dif_pos (by omega), hab]
  dsimp only
  rw [if_pos (show ("single_form" == "single_form") = true ∧
    current + 1 < rows.length from ⟨by decide, h⟩)]
  exact ⟨_, rfl, rfl, rfl⟩

/-- In single-record mode at the last task, one run processes it and
finishes without touching the pause flag or the saved cursor. -/
theorem executeAnchorFillGo_single_last (rows : List AnchorMatch)
    (ab succ : Nat → Bool) (st : SessionState) (processed : List Nat)
    (current : Nat) (h : current < rows.length)
    (h2 : ¬ current + 1 < rows.length) (hab : ab current = false) :
    ∃ st2, executeAnchorFillGo rows "single_form" ab succ current st processed
        = (st2, processed ++ [current]) ∧
      st2.isPaused = st.isPaused ∧ st2.currentRowIdx = st.currentRowIdx := by
  rw [executeAnchorFillGo, dif_pos h, hab]
  dsimp only
  rw [if_neg (show ¬ (("single_form" == "single_form") = true ∧
    current + 1 < rows.length) from fun hh => h2 hh.2)]
  rw [executeAnchorFillGo, dif_neg (by omega)]
  refine ⟨_, rfl, ?_, ?_⟩ <;>
    by_cases hs : succ current <;> simp [completeFill, hs]

/-- Repeatedly resuming single-record mode from an unpaused state at
cursor `C` processes exactly the indices `C, C+1, …` to the end. -/
theorem singleModeResumeRun_range (rows : List AnchorMatch)
    (succ : Nat → Bool) :
    ∀ (fuel : Nat) (st : SessionState) (acc : List Nat),
      st.isPaused = false → rows.length - st.currentRowIdx ≤ fuel →
      (singleModeResumeRun rows succ fuel st acc).2
        = acc ++ List.range' st.currentRowIdx (rows.length - st.currentRowIdx) := by
  intro fuel
  induction fuel with
  | zero =>
      intro st acc hp hf
      have h0 : rows.length - st.currentRowIdx = 0 := by omega
      rw [singleModeResumeRun, h0]
      simp [List.range']
  | succ m ih =>
      intro st acc hp hf
      rw [singleModeResumeRun]
      by_cases hC : st.currentRowIdx < rows.length
      · by_cases h2 : st.currentRowIdx + 1 < rows.length
        · obtain ⟨st2, heq, hp2, hc2⟩ := executeAnchorFillGo_single_pause rows
            (fun _ => false) succ st [] st.currentRowIdx h2 rfl
          unfold executeAnchorFill
          rw [heq]
          dsimp only
          rw [hp2, if_pos rfl]
          simp only [List.nil_append]
          have hic : ({ st2 with isPaused := false } : SessionState).currentRowIdx
              = st.currentRowIdx + 1 := hc2
          rw [ih { st2 with isPaused := false } (acc ++ [st.currentRowIdx]) rfl
            (by rw [hic]; omega)]
          rw [hic]
          have hr : rows.length - st.currentRowIdx
              = (rows.length - (st.currentRowIdx + 1)) + 1 := by omega
          rw [hr, List.range'_succ, List.append_assoc]
          rfl
        · obtain ⟨st2, heq, hp2, hc2⟩ := executeAnchorFillGo_single_last rows
            (fun _ => false) succ st [] st.currentRowIdx hC h2 rfl
          unfold executeAnchorFill
          rw [heq]
          dsimp only
          rw [hp2, hp, if_neg Bool.false_ne_true]
          have hr : rows.length - st.currentRowIdx = 1 := by omega
          rw [hr]
          rfl
      · unfold executeAnchorFill
        rw [executeAnchorFillGo, dif_neg (by omega)]
        dsimp only
        rw [show (completeFill st).isPaused = st.isPaused from rfl, hp,
          if_neg Bool.false_ne_true]
        have h0 : rows.length - st.currentRowIdx = 0 := by omega
        rw [h0]
        simp [List.range']

/-- C2: resuming the anchor loop from a persisted cursor `C` processes
exactly the task indices `≥ C` in order, never an index `< C` (absent an
abort): (i) any non-single mode drains `C … total-1` in one run;
(ii) single-record mode processes task `C` alone, pausing with saved
cursor `C + 1` when tasks remain; (iii) repeatedly resumed single-record
mode also processes exactly `C … total-1` in order. -/
theorem C2_resume_processes_tail_from_cursor (rows : List AnchorMatch)
    (mode : String) (succ : Nat → Bool) (st : SessionState) :
    ((mode == "single_form") = false →
      (executeAnchorFill rows mode (fun _ => false) succ st).2
        = List.range' st.currentRowIdx (rows.length - st.currentRowIdx)) ∧
    (st.currentRowIdx + 1 < rows.length →
      (executeAnchorFill rows "single_form" (fun _ => false) succ st).2
          = [st.currentRowIdx] ∧
      (executeAnchorFill rows "single_form" (fun _ => false) succ st).1.isPaused
          = true ∧
      (executeAnchorFill rows "single_form" (fun _ => false) succ st).1.currentRowIdx
          = st.currentRowIdx + 1) ∧
    (st.isPaused = false → ∀ fuel, rows.length - st.currentRowIdx ≤ fuel →
      (singleModeResumeRun rows succ fuel st []).2
        = List.range' st.currentRowIdx (rows.length - st.currentRowIdx)) := by
  refine ⟨?_, ?_, ?_⟩
  · intro hm
    unfold executeAnchorFill
    rw [executeAnchorFillGo_batch rows mode (fun _ => false) succ hm
      (fun _ => rfl) _ _ _ _ rfl]
    rfl
  · intro h2
    obtain ⟨st2, heq, hp2, hc2⟩ := executeAnchorFillGo_single_pause rows
      (fun _ => false) succ st [] st.currentRowIdx h2 rfl
    unfold executeAnchorFill
    rw [heq]
    exact ⟨rfl, hp2, hc2⟩
  · intro hp fuel hf
    rw [singleModeResumeRun_range rows succ fuel st [] hp hf]
    rfl

/-- Witness for C2 at the spec scenarios: single-record mode on 3 tasks
fills task 0 then pauses with cursor 1; a batch run resumed at cursor 5
of 10 processes tasks 5–9 only; repeated single-record resumption from
cursor 0 of 3 processes 0, 1, 2 in order. -/
theorem C2_witness :
    (executeAnchorFill
        [⟨0, 0, "a"⟩, ⟨1, 1, "b"⟩, ⟨2, 2, "c"⟩] "single_form"
        (fun _ => false) (fun _ => true) {}).2 = [0] ∧
    (executeAnchorFill
        [⟨0, 0, "a"⟩, ⟨1, 1, "b"⟩, ⟨2, 2, "c"⟩] "single_form"
        (fun _ => false) (fun _ => true) {}).1.isPaused = true ∧
    (executeAnchorFill
        [⟨0, 0, "a"⟩, ⟨1, 1, "b"⟩, ⟨2, 2, "c"⟩] "single_form"
        (fun _ => false) (fun _ => true) {}).1.currentRowIdx = 1 ∧
    (executeAnchorFill
        [⟨0, 0, "a"⟩, ⟨1, 1, "b"⟩, ⟨2, 2, "c"⟩, ⟨3, 3, "d"⟩, ⟨4, 4, "e"⟩,
         ⟨5, 5, "f"⟩, ⟨6, 6, "g"⟩, ⟨7, 7, "h"⟩, ⟨8, 8, "i"⟩, ⟨9, 9, "j"⟩]
        "batch_table" (fun _ => false) (fun _ => true)
        { currentRowIdx := 5 }).2 = [5, 6, 7, 8, 9] ∧
    (singleModeResumeRun [⟨0, 0, "a"⟩, ⟨1, 1, "b"⟩, ⟨2, 2, "c"⟩]
        (fun _ => true) 3 {} []).2 = [0, 1, 2] := by
  have h3 := C2_resume_processes_tail_from_cursor
    [⟨0, 0, "a"⟩, ⟨1, 1, "b"⟩, ⟨2, 2, "c"⟩] "single_form" (fun _ => true) {}
  have h10 := C2_resume_processes_tail_from_cursor
    [⟨0, 0, "a"⟩, ⟨1, 1, "b"⟩, ⟨2, 2, "c"⟩, ⟨3, 3, "d"⟩, ⟨4, 4, "e"⟩,
     ⟨5, 5, "f"⟩, ⟨6, 6, "g"⟩, ⟨7, 7, "h"⟩, ⟨8, 8, "i"⟩, ⟨9, 9, "j"⟩]
    "batch_table" (fun _ => true) { currentRowIdx := 5 }
  obtain ⟨hp1, hp2, hp3⟩ := h3.2.1 (by decide)
  refine ⟨hp1, hp2, hp3, ?_, ?_⟩
  · exact (h10.1 (by decide)).trans (by decide)
  · exact (h3.2.2 rfl 3 (by decide)).trans (by decide)

/-- C3 counterexample: with poll counts `[5, 3, 3, 3, 3]` the stability
loop breaks on the stable count 3 and returns the 3-element snapshot,
although a 5-element snapshot — the highest count seen — occurred: the
fingerprints are not built from the best (highest-count) snapshot. -/
theorem C3_counterexample_not_highest_count :
    deepScanMainCount
        ([[0, 1, 2, 3, 4], [0, 1, 2], [0, 1, 2], [0, 1, 2], [0, 1, 2]] :
          List (List Nat)) = some 3 ∧
    [0, 1, 2, 3, 4] ∈
        ([[0, 1, 2, 3, 4], [0, 1, 2], [0, 1, 2], [0, 1, 2], [0, 1, 2]] :
          List (List Nat)) ∧
    ([0, 1, 2, 3, 4] : List Nat).length = 5 ∧ (3 : Nat) ≠ 5 := by
  decide

/-- The stability loop only ever returns a polled, non-empty snapshot
(or the one already retained on entry). -/
theorem deepScanLoop_mem {α : Type} :
    ∀ (polls : List (List α)) (acc : ScanAcc α) (l : List α),
      deepScanLoop polls acc = some l →
      (l ∈ polls ∧ l ≠ []) ∨ acc.bestResult = some l := by
  intro polls
  induction polls with
  | nil =>
      intro acc l h
      right
      exact h
  | cons snap rest ih =>
      intro acc l h
      rw [deepScanLoop] at h
      split at h
      · split at h
        · cases h
          rename_i hcond hthr
          rw [Bool.and_eq_true] at hcond
          have hlen : 0 < snap.length := by simpa using hcond.2
          exact Or.inl ⟨List.mem_cons_self _ _, List.ne_nil_of_length_pos hlen⟩
        · rcases ih _ l h with ⟨hm, hn⟩ | hb
          · exact Or.inl ⟨List.mem_cons_of_mem _ hm, hn⟩
          · exact Or.inr hb
      · rcases ih _ l h with ⟨hm, hn⟩ | hb
        · exact Or.inl ⟨List.mem_cons_of_mem _ hm, hn⟩
        · dsimp only at hb
          by_cases hpos : 0 < snap.length
          · rw [if_pos hpos] at hb
            cases hb
            exact Or.inl ⟨List.mem_cons_self _ _,
              List.ne_nil_of_length_pos hpos⟩
          · rw [if_neg hpos] at hb
            exact Or.inr hb

/-- C3 (amended): the fingerprints are built from a snapshot actually
seen during polling — the stable snapshot when the count is unchanged
for 3 consecutive polls (the threshold is hardcoded, not configurable),
otherwise the most recent non-empty snapshot retained at a count change
— which need not be the highest-count one; poll counts `[3, 5, 5, 5]`
still yield exactly 5 fingerprints. -/
theorem C3_amended_snapshot_selection {α : Type} :
    (∀ (polls : List (List α)) (l : List α),
      deepScanLoop polls (scanInit α) = some l → l ∈ polls ∧ l ≠ []) ∧
    deepScanMainCount
        ([[0, 1, 2], [0, 1, 2, 3, 4], [0, 1, 2, 3, 4], [0, 1, 2, 3, 4]] :
          List (List Nat)) = some 5 := by
  constructor
  · intro polls l h
    rcases deepScanLoop_mem polls (scanInit α) l h with hm | hb
    · exact hm
    · cases hb
  · decide

/-- Witness for C3 (amended) at the `[3, 5, 5, 5]` polls: the loop
selects the first 5-element snapshot, which is indeed one of the polled
non-empty snapshots. -/
theorem C3_amended_witness :
    ([0, 1, 2, 3, 4] : List Nat) ∈
        ([[0, 1, 2], [0, 1, 2, 3, 4], [0, 1, 2, 3, 4], [0, 1, 2, 3, 4]] :
          List (List Nat)) ∧
    ([0, 1, 2, 3, 4] : List Nat) ≠ [] :=
  (C3_amended_snapshot_selection (α := Nat)).1
    [[0, 1, 2], [0, 1, 2, 3, 4], [0, 1, 2, 3, 4], [0, 1, 2, 3, 4]]
    [0, 1, 2, 3, 4] (by decide)

/-- C7: whenever the found navigation button reports any positive
disabled signal, `click_next_page` returns `False` with zero clicks and
an unchanged page counter. -/
theorem C7_disabled_short_circuits_without_click (tab : PCTab)
    (page maxRetries pollBudget : Nat) (b : PCButton)
    (hb : tab.button = some b) (hd : checkButtonDisabled b = true) :
    clickNextPage tab true page maxRetries pollBudget
      = { result := false, clicks := 0, currentPage := page } := by
  show clickRetryLoop tab pollBudget maxRetries 0 0 page = _
  cases maxRetries with
  | zero => rfl
  | succ m =>
      rw [clickRetryLoop, hb]
      dsimp only
      rw [hd, if_pos rfl]

/-- Witness for C7: a button carrying `aria-disabled="true"` makes
`click_next_page` return false with no click and the page counter
still 1. -/
theorem C7_witness :
    clickNextPage
        { snapshots := fun _ => { url := "u", contentHash := "h" },
          button := some { ariaDisabled := some "true" }, clickOk := true }
        true 1 3 17
      = { result := false, clicks := 0, currentPage := 1 } :=
  C7_disabled_short_circuits_without_click _ 1 3 17
    { ariaDisabled := some "true" } rfl (by decide)

/-- An unchanged snapshot stream never reports a page change. -/
theorem waitForChange_const (tab : PCTab) (s0 : PageSnap)
    (hs : ∀ n, tab.snapshots n = s0) :
    ∀ (fuel cap : Nat), waitForChange tab s0 fuel cap = (false, cap + fuel) := by
  intro fuel
  induction fuel with
  | zero => intro cap; rfl
  | succ m ih =>
      intro cap
      rw [waitForChange, hs cap]
      have hself : detectPageChange s0 s0 = false := by
        simp [detectPageChange]
      rw [hself, if_neg Bool.false_ne_true, ih (cap + 1)]
      congr 1
      omega

/-- With an enabled button and no observable page change, the retry loop
clicks once per retry and finally reports failure with the page counter
untouched. -/
theorem clickRetryLoop_const (tab : PCTab) (pollBudget page : Nat)
    (b : PCButton) (s0 : PageSnap) (hs : ∀ n, tab.snapshots n = s0)
    (hb : tab.button = some b) (hnd : checkButtonDisabled b = false)
    (hck : tab.clickOk = true) :
    ∀ (r cap clicks : Nat),
      clickRetryLoop tab pollBudget r cap clicks page
        = { result := false, clicks := clicks + r, currentPage := page } := by
  intro r
  induction r with
  | zero => intro cap clicks; rfl
  | succ m ih =>
      intro cap clicks
      rw [clickRetryLoop, hb]
      dsimp only
      rw [hnd, if_neg Bool.false_ne_true, hck, if_pos rfl, hs cap,
        waitForChange_const tab s0 hs pollBudget (cap + 1)]
      dsimp only
      rw [if_neg Bool.false_ne_true, ih (cap + 1 + pollBudget) (clicks + 1)]
      congr 1
      omega

/-- C8: when every observed snapshot is identical (no page change ever
detected), `click_next_page` exhausts its retry budget and returns
`False` with the page counter unchanged — a normal return value, not an
exception (the embedded `except` handler absorbs per-retry failures and
every branch of the embedding returns a value). -/
theorem C8_unchanged_page_retries_return_false (tab : PCTab)
    (page maxRetries pollBudget : Nat) (b : PCButton) (s0 : PageSnap)
    (hs : ∀ n, tab.snapshots n = s0) (hb : tab.button = some b)
    (hnd : checkButtonDisabled b = false) (hck : tab.clickOk = true) :
    clickNextPage tab true page maxRetries pollBudget
      = { result := false, clicks := maxRetries, currentPage := page } := by
  show clickRetryLoop tab pollBudget maxRetries 0 0 page = _
  rw [clickRetryLoop_const tab pollBudget page b s0 hs hb hnd hck maxRetries 0 0]
  congr 1
  omega

/-- Witness for C8: three retries against a constant page state return
false, three clicks, page counter still 1. -/
theorem C8_witness :
    clickNextPage
        { snapshots := fun _ => { url := "u", contentHash := "h" },
          button := some {}, clickOk := true } true 1 3 17
      = { result := false, clicks := 3, currentPage := 1 } :=
  C8_unchanged_page_retries_return_false _ 1 3 17 {}
    { url := "u", contentHash := "h" } (fun _ => rfl) rfl (by decide) rfl

/-- C4 (code bug): for a control unreachable by every recorded selector,
the single-field write does not return `False` — it raises
`AttributeError` on every invocation (hence identically on both of two
consecutive calls: the embedding is a pure function), because the JS
path reports `element_not_found` and the native fallback then calls
`fingerprint.get_fallback_selectors()`, a method `ElementFingerprint`
never defines; the surrounding `try` has only a `finally`, so nothing
catches it. -/
theorem C4_unreachable_control_raises_attribute_error :
    ∀ value : String,
      fillWithFallback
          { locatableById := fun _ => false, locatableByCss := fun _ => false,
            locatableByXpath := fun _ => false }
          {} value
        = .error (.attributeError
            "ElementFingerprint object has no attribute get_fallback_selectors") := by
  intro value
  rfl

end Weaver
